import Mathlib

/-!
Verification of the geomonitor-map frontend core (src/app.js).

The embedded fragment covers:
* `getTopicColor`     (app.js lines 88–98): topic → display color, theme-aware neutral;
* `getMinZoomForImportance` (app.js lines 101–110): importance → minimum zoom;
* `renderMarkers`     (app.js lines 173–212): wholesale marker rebuild from a snapshot;
* `updateMarkerVisibility` (app.js lines 215–225): attach/detach by zoom threshold;
* the Firebase `value`/error callbacks of `setupRealtimeListener` (app.js lines 147–170).

JavaScript dynamic values that feed `parseInt` are modelled by `JSValue`;
the Leaflet map is modelled by the list of attached marker ids (`St.layers`),
with `addTo`/`removeLayer` as append/filter and `hasLayer` as membership.
Marker objects are identified by freshly allocated `Nat` ids.
-/

namespace Geomonitor

/-- A JavaScript value in the positions where app.js reads event fields:
a number (integral payloads suffice for the claims), a string, `undefined`,
`null`, or a boolean. -/
inductive JSValue where
  | num  (n : Int)
  | str  (s : String)
  | undef
  | nullv
  | boolv (b : Bool)
deriving Repr, DecidableEq

/-- Numeric value of a list of decimal digit characters. -/
def digitsVal (cs : List Char) : Nat :=
  cs.foldl (fun a c => a * 10 + (c.toNat - 48)) 0

/-- Leading-integer parse of a string: optional sign followed by decimal
digits; `none` when no digit is found (JS `parseInt` returning `NaN`). -/
def parseLeadingInt (s : String) : Option Int :=
  match s.data with
  | '-' :: rest =>
      let ds := rest.takeWhile Char.isDigit
      if ds.isEmpty then none else some (-(digitsVal ds : Int))
  | '+' :: rest =>
      let ds := rest.takeWhile Char.isDigit
      if ds.isEmpty then none else some (digitsVal ds : Int)
  | cs =>
      let ds := cs.takeWhile Char.isDigit
      if ds.isEmpty then none else some (digitsVal ds : Int)

/-- JS `parseInt` on a `JSValue`: numbers parse to themselves (integral model),
strings parse their leading integer, everything else is `NaN` (`none`). -/
def parseIntJS : JSValue → Option Int
  | .num n  => some n
  | .str s  => parseLeadingInt s
  | .undef  => none
  | .nullv  => none
  | .boolv _ => none

/-- app.js lines 101–110:
`const imp = parseInt(importance) || 3;` then a switch 5→0, 4→3, 3→5, 2→7,
default→9.  `|| 3` replaces the falsy results `NaN` and `0` by `3`. -/
def getMinZoomForImportance (importance : JSValue) : Int :=
  let imp : Int :=
    match parseIntJS importance with
    | none => 3
    | some n => if n = 0 then 3 else n
  if imp = 5 then 0
  else if imp = 4 then 3
  else if imp = 3 then 5
  else if imp = 2 then 7
  else 9

/-- JS `String.prototype.toLowerCase` on the ASCII range: lowercase the
string character by character. -/
def toLowerStr (s : String) : String := ⟨s.data.map Char.toLower⟩

/-- The topic group mapped to the "alert" color `#ef4444` (app.js line 93). -/
def alertTopics : List String := ["geopolitics", "conflict", "diplomacy", "security"]

/-- The topic group mapped to the "growth" color `#22c55e` (app.js line 94). -/
def growthTopics : List String := ["economy", "finance"]

/-- The topic group mapped to the "info" color `#0ea5e9` (app.js line 95). -/
def infoTopics : List String := ["technology", "cyber", "science"]

/-- The topic group mapped to the "warning" color `#fb923c` (app.js line 96). -/
def warningTopics : List String := ["environment", "disaster", "energy"]

/-- The theme-dependent neutral dot color of app.js lines 90–91:
black on the light themes (`light`, `satellite`), white otherwise. -/
def defaultDot (currentTheme : String) : String :=
  if currentTheme == "light" || currentTheme == "satellite" then "#000000" else "#ffffff"

/-- app.js lines 88–98: lowercase the topic (missing topic becomes `""`),
test the four groups in order, otherwise return the theme-dependent neutral. -/
def getTopicColor (topic : Option String) (currentTheme : String) : String :=
  let t := toLowerStr (topic.getD "")
  if t ∈ alertTopics then "#ef4444"
  else if t ∈ growthTopics then "#22c55e"
  else if t ∈ infoTopics then "#0ea5e9"
  else if t ∈ warningTopics then "#fb923c"
  else defaultDot currentTheme

/-- An event record as read by app.js.  Coordinates are numeric-or-missing
(`Option Int` — integral payloads suffice for the falsy checks); the display
strings are optional; `importance` is an arbitrary JS value fed to `parseInt`. -/
structure Event where
  lat : Option Int
  lon : Option Int
  title : Option String
  description : Option String
  type : Option String
  topic : Option String
  importance : JSValue
  url : Option String
deriving Repr, DecidableEq

/-- JS falsiness of a numeric-or-missing field: `undefined`/`null` and `0`
are falsy (the `!e.lat || !e.lon` guard of app.js line 181). -/
def falsy : Option Int → Bool
  | none => true
  | some n => n == 0

/-- The `!e || !e.lat || !e.lon` guard of app.js line 181, as a validity
test: a snapshot record survives iff it is non-null and both coordinates
are truthy. -/
def validEvent : Option Event → Bool
  | none => false
  | some e => !(falsy e.lat) && !(falsy e.lon)

/-- One entry of `activeMarkers` (app.js line 204): the snapshot key, the
identity of the `L.circleMarker` object it holds (a freshly allocated `Nat`),
and the zoom threshold computed for it. -/
structure MarkerEntry where
  key : String
  id : Nat
  minZoom : Int
deriving Repr, DecidableEq

/-- The controller state: `activeMarkers` (insertion-ordered), the marker ids
currently attached to the Leaflet map (`layers`, i.e. `map.hasLayer`), and the
allocation counter for fresh marker objects. -/
structure St where
  activeMarkers : List MarkerEntry
  layers : List Nat
  nextId : Nat
deriving Repr, DecidableEq

/-- app.js lines 175–178: remove every current marker from the map
(`removeLayer` when `hasLayer`), then reset `activeMarkers = {}`. -/
def clearMarkers (st : St) : St :=
  { st with
    layers := st.layers.filter fun l => !(st.activeMarkers.any fun m => m.id == l)
    activeMarkers := [] }

/-- app.js lines 180–206: for each snapshot entry, skip it when null or when
a coordinate is falsy; otherwise build a marker (fresh object id), record it
in `activeMarkers` under the snapshot key, and `addTo(map)`. -/
def addMarkers (events : List (String × Option Event)) (st : St) : St :=
  match events with
  | [] => st
  | (key, e) :: rest =>
    match e with
    | none => addMarkers rest st
    | some ev =>
      if falsy ev.lat || falsy ev.lon then addMarkers rest st
      else
        addMarkers rest
          { st with
            activeMarkers := st.activeMarkers ++ [⟨key, st.nextId, getMinZoomForImportance ev.importance⟩]
            layers := st.layers ++ [st.nextId]
            nextId := st.nextId + 1 }

/-- The loop body of app.js lines 217–223 over the marker entries: attach a
marker when `zoom >= minZoom` and it is not on the map, detach it when
`zoom < minZoom` and it is on the map.  Returns the final layer list together
with the number of `addLayer` and `removeLayer` calls performed. -/
def updVis (zoom : Int) (ms : List MarkerEntry) (layers : List Nat) :
    List Nat × Nat × Nat :=
  match ms with
  | [] => (layers, 0, 0)
  | m :: rest =>
    if zoom ≥ m.minZoom then
      if m.id ∈ layers then updVis zoom rest layers
      else
        let r := updVis zoom rest (layers ++ [m.id])
        (r.1, r.2.1 + 1, r.2.2)
    else
      if m.id ∈ layers then
        let r := updVis zoom rest (layers.filter (· ≠ m.id))
        (r.1, r.2.1, r.2.2 + 1)
      else updVis zoom rest layers

/-- app.js lines 215–225 (`updateMarkerVisibility`), with the current zoom
passed explicitly (`map.getZoom()`).  The second and third components count
the attach and detach calls made on the map surface. -/
def updateMarkerVisibility (zoom : Int) (st : St) : St × Nat × Nat :=
  let r := updVis zoom st.activeMarkers st.layers
  ({ st with layers := r.1 }, r.2.1, r.2.2)

/-- app.js lines 173–212 (`renderMarkers`): clear all previous markers,
rebuild from the snapshot, then re-evaluate visibility at the current zoom. -/
def renderMarkers (events : List (String × Option Event)) (zoom : Int) (st : St) : St :=
  (updateMarkerVisibility zoom (addMarkers events (clearMarkers st))).1

/-- A notification from the Firebase feed: a value snapshot (whose `val()` is
`none` when the feed is empty/absent) or an error callback. -/
inductive FeedMsg where
  | value (snap : Option (List (String × Option Event)))
  | error
deriving Repr

/-- The listener callbacks of app.js lines 153–165: a null snapshot logs
`no events` and returns without touching state; a non-null snapshot is passed
to `renderMarkers`, which then reports the displayed count; the error callback
reports to the status sink and leaves the state unchanged. -/
def handleFeed (msg : FeedMsg) (zoom : Int) (st : St) : St × List String :=
  match msg with
  | .value none => (st, ["no events"])
  | .value (some events) =>
    let st' := renderMarkers events zoom st
    (st', [toString st'.activeMarkers.length ++ " events displayed"])
  | .error => (st, ["Firebase listener error:", "firebase error"])

/-- Specification view of marker construction: the entries produced from a
snapshot list when the next fresh id is `n` — each valid record yields one
entry, in snapshot order, with consecutive ids. -/
def entriesOf (n : Nat) (events : List (String × Option Event)) : List MarkerEntry :=
  match events with
  | [] => []
  | (key, e) :: rest =>
    match e with
    | none => entriesOf n rest
    | some ev =>
      if falsy ev.lat || falsy ev.lon then entriesOf n rest
      else ⟨key, n, getMinZoomForImportance ev.importance⟩ :: entriesOf (n + 1) rest

/-- Number of records of a snapshot list that pass the validity guard. -/
def countValid (events : List (String × Option Event)) : Nat :=
  (events.filter fun p => validEvent p.2).length

/-- A visibility pass leaves the attachment of ids that belong to no
processed entry unchanged. -/
lemma updVis_other (zoom : Int) (ms : List MarkerEntry) :
    ∀ (layers : List Nat) (x : Nat), (∀ m ∈ ms, m.id ≠ x) →
      (x ∈ (updVis zoom ms layers).1 ↔ x ∈ layers) := by
  induction ms with
  | nil => intro layers x _; simp [updVis]
  | cons m rest ih =>
    intro layers x h
    have hmx : m.id ≠ x := h m (by simp)
    have hrest : ∀ m' ∈ rest, m'.id ≠ x := fun m' hm' => h m' (by simp [hm'])
    by_cases hz : zoom ≥ m.minZoom
    · by_cases hmem : m.id ∈ layers
      · simpa [updVis, hz, hmem] using ih layers x hrest
      · have := ih (layers ++ [m.id]) x hrest
        simp only [updVis, if_pos hz, if_neg hmem] at *
        simp only [List.mem_append, List.mem_singleton] at this
        rw [this]
        constructor
        · rintro (hx | rfl)
          · exact hx
          · exact absurd rfl hmx
        · exact Or.inl
    · by_cases hmem : m.id ∈ layers
      · have := ih (layers.filter (· ≠ m.id)) x hrest
        simp only [updVis, if_neg hz, if_pos hmem] at *
        rw [this]
        simp only [List.mem_filter, decide_eq_true_eq]
        exact ⟨fun hx => hx.1, fun hx => ⟨hx, fun he => hmx he.symm⟩⟩
      · simpa [updVis, hz, hmem] using ih layers x hrest

/-- After a visibility pass over entries with pairwise distinct marker ids,
each processed entry is attached exactly when its threshold is met. -/
lemma updVis_entry (zoom : Int) (ms : List MarkerEntry) :
    ∀ (layers : List Nat), (ms.map MarkerEntry.id).Nodup →
      ∀ m ∈ ms, (m.id ∈ (updVis zoom ms layers).1 ↔ zoom ≥ m.minZoom) := by
  induction ms with
  | nil => intro layers _ m hm; cases hm
  | cons m0 rest ih =>
    intro layers hnd m hm
    have hnd' : (rest.map MarkerEntry.id).Nodup := (List.nodup_cons.mp hnd).2
    have hnotin : m0.id ∉ rest.map MarkerEntry.id := (List.nodup_cons.mp hnd).1
    rcases List.mem_cons.mp hm with rfl | hmr
    · -- the head entry: its membership is decided by the first step and
      -- untouched by the recursive pass
      have hother : ∀ m' ∈ rest, m'.id ≠ m.id := by
        intro m' hm' he
        exact hnotin (he ▸ List.mem_map_of_mem MarkerEntry.id hm')
      by_cases hz : zoom ≥ m.minZoom
      · by_cases hmem : m.id ∈ layers
        · simp only [updVis, if_pos hz, if_pos hmem]
          rw [updVis_other zoom rest layers m.id hother]
          exact ⟨fun _ => hz, fun _ => hmem⟩
        · simp only [updVis, if_pos hz, if_neg hmem]
          rw [updVis_other zoom rest (layers ++ [m.id]) m.id hother]
          simp [hz]
      · by_cases hmem : m.id ∈ layers
        · simp only [updVis, if_neg hz, if_pos hmem]
          rw [updVis_other zoom rest (layers.filter (· ≠ m.id)) m.id hother]
          simp [hz]
        · simp only [updVis, if_neg hz, if_neg hmem]
          rw [updVis_other zoom rest layers m.id hother]
          exact ⟨fun hx => absurd hx hmem, fun hx => absurd hx hz⟩
    · -- an entry of the tail: apply the induction hypothesis to whichever
      -- layer list the first step produced
      by_cases hz : zoom ≥ m0.minZoom
      · by_cases hmem : m0.id ∈ layers
        · simpa [updVis, hz, hmem] using ih layers hnd' m hmr
        · simpa [updVis, hz, hmem] using ih (layers ++ [m0.id]) hnd' m hmr
      · by_cases hmem : m0.id ∈ layers
        · simpa [updVis, hz, hmem] using ih (layers.filter (· ≠ m0.id)) hnd' m hmr
        · simpa [updVis, hz, hmem] using ih layers hnd' m hmr

/-- A visibility pass attaches no id that was neither attached before nor
the id of some processed entry. -/
lemma updVis_subset (zoom : Int) (ms : List MarkerEntry) :
    ∀ (layers : List Nat) (x : Nat), x ∈ (updVis zoom ms layers).1 →
      x ∈ layers ∨ ∃ m ∈ ms, m.id = x := by
  induction ms with
  | nil => intro layers x hx; exact Or.inl (by simpa [updVis] using hx)
  | cons m0 rest ih =>
    intro layers x hx
    by_cases hz : zoom ≥ m0.minZoom
    · by_cases hmem : m0.id ∈ layers
      · simp only [updVis, if_pos hz, if_pos hmem] at hx
        rcases ih layers x hx with h | ⟨m, hm, he⟩
        · exact Or.inl h
        · exact Or.inr ⟨m, List.mem_cons_of_mem _ hm, he⟩
      · simp only [updVis, if_pos hz, if_neg hmem] at hx
        rcases ih (layers ++ [m0.id]) x hx with h | ⟨m, hm, he⟩
        · rcases List.mem_append.mp h with h | h
          · exact Or.inl h
          · exact Or.inr ⟨m0, List.mem_cons_self .., (List.mem_singleton.mp h).symm⟩
        · exact Or.inr ⟨m, List.mem_cons_of_mem _ hm, he⟩
    · by_cases hmem : m0.id ∈ layers
      · simp only [updVis, if_neg hz, if_pos hmem] at hx
        rcases ih (layers.filter (· ≠ m0.id)) x hx with h | ⟨m, hm, he⟩
        · exact Or.inl (List.mem_of_mem_filter h)
        · exact Or.inr ⟨m, List.mem_cons_of_mem _ hm, he⟩
      · simp only [updVis, if_neg hz, if_neg hmem] at hx
        rcases ih layers x hx with h | ⟨m, hm, he⟩
        · exact Or.inl h
        · exact Or.inr ⟨m, List.mem_cons_of_mem _ hm, he⟩

/-- When every entry is already attached exactly when visible, a visibility
pass changes nothing and performs zero attach and zero detach calls. -/
lemma updVis_fixed (zoom : Int) (ms : List MarkerEntry) :
    ∀ (layers : List Nat), (∀ m ∈ ms, (m.id ∈ layers ↔ zoom ≥ m.minZoom)) →
      updVis zoom ms layers = (layers, 0, 0) := by
  induction ms with
  | nil => intro layers _; simp [updVis]
  | cons m0 rest ih =>
    intro layers h
    have h0 := h m0 (by simp)
    have hrest : ∀ m ∈ rest, (m.id ∈ layers ↔ zoom ≥ m.minZoom) :=
      fun m hm => h m (by simp [hm])
    by_cases hz : zoom ≥ m0.minZoom
    · have hmem : m0.id ∈ layers := h0.mpr hz
      simp only [updVis, if_pos hz, if_pos hmem]
      exact ih layers hrest
    · have hmem : m0.id ∉ layers := fun hx => hz (h0.mp hx)
      simp only [updVis, if_neg hz, if_neg hmem]
      exact ih layers hrest

/-- A record with a non-null payload is valid exactly when neither
coordinate is falsy. -/
lemma validEvent_some (ev : Event) :
    validEvent (some ev) = !(falsy ev.lat || falsy ev.lon) := by
  simp [validEvent, Bool.not_or]

/-- When every attached layer is one of the controller's markers, clearing
detaches everything: the state keeps only its allocation counter. -/
lemma clearMarkers_eq (st : St)
    (hSub : ∀ l ∈ st.layers, ∃ m ∈ st.activeMarkers, m.id = l) :
    clearMarkers st = ⟨[], [], st.nextId⟩ := by
  have hfil : (st.layers.filter fun l => !(st.activeMarkers.any fun m => m.id == l)) = [] := by
    rw [List.filter_eq_nil_iff]
    intro l hl
    obtain ⟨m, hm, he⟩ := hSub l hl
    simp only [Bool.not_eq_true', Bool.not_eq_false, List.any_eq_true]
    exact ⟨m, hm, by simp [he]⟩
  simp [clearMarkers, hfil]

/-- Unfolding of `addMarkers`: it appends the entries of the snapshot to the
marker table, attaches exactly those fresh markers, and advances the counter
by the number of valid records. -/
lemma addMarkers_spec (events : List (String × Option Event)) :
    ∀ st : St, addMarkers events st =
      ⟨st.activeMarkers ++ entriesOf st.nextId events,
       st.layers ++ (entriesOf st.nextId events).map MarkerEntry.id,
       st.nextId + countValid events⟩ := by
  induction events with
  | nil => intro st; simp [addMarkers, entriesOf, countValid]
  | cons p rest ih =>
    intro st
    obtain ⟨key, e⟩ := p
    cases e with
    | none => simp [addMarkers, entriesOf, countValid, validEvent, List.filter_cons, ih st]
    | some ev =>
      by_cases hval : (falsy ev.lat || falsy ev.lon) = true
      · have hv : validEvent (some ev) = false := by
          rw [validEvent_some, hval]
          rfl
        simp [addMarkers, entriesOf, countValid, hval, List.filter_cons, hv, ih st]
      · have hv : validEvent (some ev) = true := by
          have hval' : (falsy ev.lat || falsy ev.lon) = false := by
            simpa using hval
          rw [validEvent_some, hval']
          rfl
        rw [addMarkers, if_neg hval]
        rw [ih _]
        simp only [entriesOf, if_neg hval, countValid, List.filter_cons, hv, if_pos]
        simp [countValid, List.append_assoc]
        omega

/-- Every entry built from fresh id `n` onwards has id at least `n`. -/
lemma entriesOf_ge (events : List (String × Option Event)) :
    ∀ n : Nat, ∀ m ∈ entriesOf n events, n ≤ m.id := by
  induction events with
  | nil => intro n m hm; simp [entriesOf] at hm
  | cons p rest ih =>
    intro n m hm
    obtain ⟨key, e⟩ := p
    cases e with
    | none => exact ih n m (by simpa [entriesOf] using hm)
    | some ev =>
      by_cases hval : (falsy ev.lat || falsy ev.lon) = true
      · exact ih n m (by simpa [entriesOf, hval] using hm)
      · simp only [entriesOf, if_neg hval, List.mem_cons] at hm
        rcases hm with rfl | hm
        · exact Nat.le_refl _
        · exact Nat.le_of_succ_le (ih (n + 1) m hm)

/-- The marker ids handed out while building entries are pairwise distinct. -/
lemma entriesOf_nodup (events : List (String × Option Event)) :
    ∀ n : Nat, ((entriesOf n events).map MarkerEntry.id).Nodup := by
  induction events with
  | nil => intro n; simp [entriesOf]
  | cons p rest ih =>
    intro n
    obtain ⟨key, e⟩ := p
    cases e with
    | none => simpa [entriesOf] using ih n
    | some ev =>
      by_cases hval : (falsy ev.lat || falsy ev.lon) = true
      · simpa [entriesOf, hval] using ih n
      · simp only [entriesOf, if_neg hval, List.map_cons, List.nodup_cons]
        refine ⟨?_, ih (n + 1)⟩
        intro hmem
        obtain ⟨m, hm, he⟩ := List.mem_map.mp hmem
        have := entriesOf_ge rest (n + 1) m hm
        omega

/-- The keys of the built entries are exactly the keys of the valid records,
in snapshot order. -/
lemma entriesOf_keys (events : List (String × Option Event)) :
    ∀ n : Nat, (entriesOf n events).map MarkerEntry.key =
      (events.filter fun p => validEvent p.2).map Prod.fst := by
  induction events with
  | nil => intro n; simp [entriesOf]
  | cons p rest ih =>
    intro n
    obtain ⟨key, e⟩ := p
    cases e with
    | none => simp [entriesOf, List.filter_cons, validEvent, ih n]
    | some ev =>
      by_cases hval : (falsy ev.lat || falsy ev.lon) = true
      · have hv : validEvent (some ev) = false := by
          rw [validEvent_some, hval]
          rfl
        simp [entriesOf, hval, List.filter_cons, hv, ih n]
      · have hv : validEvent (some ev) = true := by
          have hval' : (falsy ev.lat || falsy ev.lon) = false := by
            simpa using hval
          rw [validEvent_some, hval']
          rfl
        simp [entriesOf, hval, List.filter_cons, hv, ih (n + 1)]

/-- A topic whose lowercase form is in the alert group gets the alert color,
whatever the theme. -/
lemma topicColor_alert (s theme : String) (h : toLowerStr s ∈ alertTopics) :
    getTopicColor (some s) theme = "#ef4444" := by
  unfold getTopicColor
  simp only [Option.getD_some]
  rw [if_pos h]

/-- A topic whose lowercase form is in the growth group gets the growth
color, whatever the theme. -/
lemma topicColor_growth (s theme : String) (h : toLowerStr s ∈ growthTopics) :
    getTopicColor (some s) theme = "#22c55e" := by
  unfold getTopicColor
  simp only [Option.getD_some]
  simp only [growthTopics, List.mem_cons, List.not_mem_nil, or_false] at h
  rcases h with h | h <;> simp only [h] <;>
    rw [if_neg (by decide), if_pos (by decide)]

/-- A topic whose lowercase form is in the info group gets the info color,
whatever the theme. -/
lemma topicColor_info (s theme : String) (h : toLowerStr s ∈ infoTopics) :
    getTopicColor (some s) theme = "#0ea5e9" := by
  unfold getTopicColor
  simp only [Option.getD_some]
  simp only [infoTopics, List.mem_cons, List.not_mem_nil, or_false] at h
  rcases h with h | h | h <;> simp only [h] <;>
    rw [if_neg (by decide), if_neg (by decide), if_pos (by decide)]

/-- A topic whose lowercase form is in the warning group gets the warning
color, whatever the theme. -/
lemma topicColor_warning (s theme : String) (h : toLowerStr s ∈ warningTopics) :
    getTopicColor (some s) theme = "#fb923c" := by
  unfold getTopicColor
  simp only [Option.getD_some]
  simp only [warningTopics, List.mem_cons, List.not_mem_nil, or_false] at h
  rcases h with h | h | h <;> simp only [h] <;>
    rw [if_neg (by decide), if_neg (by decide), if_neg (by decide), if_pos (by decide)]

/-- A topic matching none of the four groups gets the theme-dependent
neutral color. -/
lemma topicColor_neutral (s theme : String)
    (h : toLowerStr s ∉ alertTopics ++ growthTopics ++ infoTopics ++ warningTopics) :
    getTopicColor (some s) theme = defaultDot theme := by
  simp only [List.mem_append, not_or] at h
  obtain ⟨⟨⟨h1, h2⟩, h3⟩, h4⟩ := h
  unfold getTopicColor
  simp only [Option.getD_some]
  rw [if_neg h1, if_neg h2, if_neg h3, if_neg h4]

/-- A missing topic gets the theme-dependent neutral color. -/
lemma topicColor_none (theme : String) :
    getTopicColor none theme = defaultDot theme := by
  unfold getTopicColor
  simp only [Option.getD_none]
  rw [if_neg (by decide), if_neg (by decide), if_neg (by decide), if_neg (by decide)]

/-- The state component of a visibility pass: only `layers` changes. -/
lemma updateMarkerVisibility_st (zoom : Int) (st : St) :
    (updateMarkerVisibility zoom st).1 =
      { st with layers := (updVis zoom st.activeMarkers st.layers).1 } := rfl

/-- The marker table produced by a rebuild is exactly the entries of the
snapshot, independent of what was attached before. -/
lemma renderMarkers_active (events : List (String × Option Event)) (zoom : Int) (st : St) :
    (renderMarkers events zoom st).activeMarkers = entriesOf st.nextId events := by
  unfold renderMarkers
  rw [addMarkers_spec]
  rfl

/-- Full unfolding of a rebuild from a state whose attached layers all
belong to the controller. -/
lemma renderMarkers_eq (events : List (String × Option Event)) (zoom : Int) (st : St)
    (hSub : ∀ l ∈ st.layers, ∃ m ∈ st.activeMarkers, m.id = l) :
    renderMarkers events zoom st =
      ⟨entriesOf st.nextId events,
       (updVis zoom (entriesOf st.nextId events)
          ((entriesOf st.nextId events).map MarkerEntry.id)).1,
       st.nextId + countValid events⟩ := by
  unfold renderMarkers
  rw [clearMarkers_eq st hSub, addMarkers_spec]
  rfl

/-- A demonstration snapshot record with valid coordinates, finance topic,
importance 5 (minimum zoom 0). -/
def demoEvent1 : Event :=
  ⟨some 40, some (-74), none, none, none, some "finance", JSValue.num 5, none⟩

/-- A demonstration snapshot record with valid coordinates, disaster topic,
importance 1 (minimum zoom 9). -/
def demoEvent2 : Event :=
  ⟨some 51, some (-1), none, none, none, some "disaster", JSValue.num 1, none⟩

/-- A two-record demonstration snapshot. -/
def demoEvents : List (String × Option Event) :=
  [("e1", some demoEvent1), ("e2", some demoEvent2)]

/-- C1: after `replaceAll(events)` (`renderMarkers`) followed immediately by
`reevaluateVisibility(zoom)` (`updateMarkerVisibility`), every stored marker
entry is attached to the map exactly when its `minZoom` is at most `zoom`,
and nothing else is attached.  The hypothesis states that the starting state
attaches only markers the controller owns, which holds in every reachable
state. -/
theorem c1_visibility_after_replace (events : List (String × Option Event))
    (zoom : Int) (st : St)
    (hSub : ∀ l ∈ st.layers, ∃ m ∈ st.activeMarkers, m.id = l) :
    (∀ m ∈ ((updateMarkerVisibility zoom (renderMarkers events zoom st)).1).activeMarkers,
        (m.id ∈ ((updateMarkerVisibility zoom (renderMarkers events zoom st)).1).layers ↔
          m.minZoom ≤ zoom)) ∧
    (∀ l ∈ ((updateMarkerVisibility zoom (renderMarkers events zoom st)).1).layers,
        ∃ m ∈ ((updateMarkerVisibility zoom (renderMarkers events zoom st)).1).activeMarkers,
          m.id = l ∧ m.minZoom ≤ zoom) := by
  rw [renderMarkers_eq events zoom st hSub, updateMarkerVisibility_st]
  set E := entriesOf st.nextId events with hE
  set L0 := E.map MarkerEntry.id with hL0
  set L1 := (updVis zoom E L0).1 with hL1
  have hnd : (E.map MarkerEntry.id).Nodup := entriesOf_nodup events st.nextId
  have hmem : ∀ m ∈ E, (m.id ∈ (updVis zoom E L1).1 ↔ zoom ≥ m.minZoom) :=
    updVis_entry zoom E L1 hnd
  constructor
  · intro m hm
    exact hmem m hm
  · intro l hl
    have hsome : ∃ m ∈ E, m.id = l := by
      rcases updVis_subset zoom E L1 l hl with h1 | h1
      · rcases updVis_subset zoom E L0 l h1 with h2 | h2
        · obtain ⟨m, hm, he⟩ := List.mem_map.mp h2
          exact ⟨m, hm, he⟩
        · exact h2
      · exact h1
    obtain ⟨m, hm, he⟩ := hsome
    exact ⟨m, hm, he, (hmem m hm).mp (he ▸ hl)⟩

/-- C1 witness: in the demonstration scenario at zoom 2, the importance-5
marker (id 0, minimum zoom 0) is attached after the rebuild and the
re-evaluation. -/
theorem c1_witness :
    0 ∈ ((updateMarkerVisibility 2 (renderMarkers demoEvents 2 ⟨[], [], 0⟩)).1).layers :=
  ((c1_visibility_after_replace demoEvents 2 ⟨[], [], 0⟩ (by decide)).1
    ⟨"e1", 0, 0⟩ (by decide)).mpr (by decide)

/-- C2 counterexample: importance `0` lies outside 1–5, yet
`getMinZoomForImportance` returns 5, not the default 9 the claim asserts,
because `parseInt(0) || 3` treats `0` as falsy and substitutes the default
importance 3. -/
theorem c2_counterexample :
    getMinZoomForImportance (JSValue.num 0) = 5 ∧
    getMinZoomForImportance (JSValue.num 0) ≠ 9 := by
  decide

/-- C2 (amended): `getMinZoomForImportance` maps importance 5, 4, 3, 2, 1 to
minimum zoom 0, 3, 5, 7, 9 respectively, and every nonzero importance value
outside 1–5 (for example 6 or -1) returns the default 9; importance 0 is
falsy, defaults to importance 3, and returns 5. -/
theorem c2_min_zoom_table :
    getMinZoomForImportance (JSValue.num 5) = 0 ∧
    getMinZoomForImportance (JSValue.num 4) = 3 ∧
    getMinZoomForImportance (JSValue.num 3) = 5 ∧
    getMinZoomForImportance (JSValue.num 2) = 7 ∧
    getMinZoomForImportance (JSValue.num 1) = 9 ∧
    getMinZoomForImportance (JSValue.num 0) = 5 ∧
    ∀ n : Int, n ≠ 0 → (n < 1 ∨ 5 < n) → getMinZoomForImportance (JSValue.num n) = 9 := by
  refine ⟨by decide, by decide, by decide, by decide, by decide, by decide, ?_⟩
  intro n hn hrange
  unfold getMinZoomForImportance parseIntJS
  simp only [if_neg hn]
  rw [if_neg (by omega), if_neg (by omega), if_neg (by omega), if_neg (by omega)]

/-- C2 witness: the amended general branch at the concrete out-of-range
nonzero importance 6. -/
theorem c2_witness : getMinZoomForImportance (JSValue.num 6) = 9 :=
  c2_min_zoom_table.2.2.2.2.2.2 6 (by decide) (by decide)

/-- C3: all topics of the alert, growth, info and warning groups
(case-insensitively, via lowercasing) map to their group color for every
theme, and every unmatched topic — including the empty and the missing
topic — maps to the neutral color of the fixed theme. -/
theorem c3_topic_color_groups (s theme : String) :
    (toLowerStr s ∈ alertTopics → getTopicColor (some s) theme = "#ef4444") ∧
    (toLowerStr s ∈ growthTopics → getTopicColor (some s) theme = "#22c55e") ∧
    (toLowerStr s ∈ infoTopics → getTopicColor (some s) theme = "#0ea5e9") ∧
    (toLowerStr s ∈ warningTopics → getTopicColor (some s) theme = "#fb923c") ∧
    (toLowerStr s ∉ alertTopics ++ growthTopics ++ infoTopics ++ warningTopics →
      getTopicColor (some s) theme = defaultDot theme) ∧
    getTopicColor none theme = defaultDot theme ∧
    getTopicColor (some "") theme = defaultDot theme :=
  ⟨topicColor_alert s theme, topicColor_growth s theme, topicColor_info s theme,
   topicColor_warning s theme, topicColor_neutral s theme, topicColor_none theme,
   topicColor_neutral "" theme (by decide)⟩

/-- C3 witness: concrete instances — a capitalized alert topic on the dark
theme, and an unknown topic falling to the dark neutral white. -/
theorem c3_witness :
    getTopicColor (some "Conflict") "dark" = "#ef4444" ∧
    getTopicColor (some "unknown-xyz") "dark" = "#ffffff" :=
  ⟨(c3_topic_color_groups "Conflict" "dark").1 (by decide),
   ((c3_topic_color_groups "unknown-xyz" "dark").2.2.2.2.1 (by decide)).trans (by decide)⟩

/-- C4 counterexample: deliver a one-record snapshot and then an absent
(null) snapshot.  The marker-entry key set is still `["e1"]`, not the empty
key set of the latest (absent) snapshot — the `if (!events) return` branch
of the listener keeps the stale entries. -/
theorem c4_counterexample :
    ((handleFeed (FeedMsg.value none) 2
        (handleFeed (FeedMsg.value (some [("e1", some demoEvent1)])) 2 ⟨[], [], 0⟩).1).1).activeMarkers.map
      MarkerEntry.key ≠ [] := by
  decide

/-- C4 (amended): for every delivered non-null snapshot, the marker-entry set
is keyed exactly by the ids of the snapshot's valid records, in snapshot
order, and every entry is freshly built (its marker id is new); a null
(absent) snapshot leaves the prior marker-entry set unchanged. -/
theorem c4_keys_from_latest (events : List (String × Option Event)) (zoom : Int) (st : St) :
    ((handleFeed (FeedMsg.value (some events)) zoom st).1).activeMarkers.map MarkerEntry.key =
      (events.filter fun p => validEvent p.2).map Prod.fst ∧
    (∀ m ∈ ((handleFeed (FeedMsg.value (some events)) zoom st).1).activeMarkers,
      st.nextId ≤ m.id) ∧
    (handleFeed (FeedMsg.value none) zoom st).1 = st := by
  refine ⟨?_, ?_, rfl⟩
  · show (renderMarkers events zoom st).activeMarkers.map MarkerEntry.key = _
    rw [renderMarkers_active]
    exact entriesOf_keys events st.nextId
  · show ∀ m ∈ (renderMarkers events zoom st).activeMarkers, st.nextId ≤ m.id
    rw [renderMarkers_active]
    exact entriesOf_ge events st.nextId

/-- C4 witness: the amended freshness conjunct at a concrete snapshot and a
concrete start counter 5 — the first entry built gets the fresh id 5. -/
theorem c4_witness : 5 ≤ (⟨"e1", 5, 0⟩ : MarkerEntry).id :=
  (c4_keys_from_latest demoEvents 2 ⟨[], [], 5⟩).2.1 ⟨"e1", 5, 0⟩ (by decide)

/-- C5: whenever `parseInt` fails (`NaN`) or yields the falsy `0` — which
covers a missing `importance`, the number `0`, and non-numeric strings like
`"abc"` — the default importance 3 applies and the minimum zoom is 5. -/
theorem c5_default_importance (v : JSValue)
    (h : parseIntJS v = none ∨ parseIntJS v = some 0) :
    getMinZoomForImportance v = 5 := by
  unfold getMinZoomForImportance
  rcases h with h | h <;> rw [h] <;> decide

/-- C5 witness: the non-numeric string `"abc"` fails to parse and is mapped
to minimum zoom 5. -/
theorem c5_witness :
    parseIntJS (JSValue.str "abc") = none ∧
    getMinZoomForImportance (JSValue.str "abc") = 5 :=
  ⟨by decide, c5_default_importance (JSValue.str "abc") (Or.inl (by decide))⟩

/-- C6: a rebuild stores exactly the valid records of the snapshot — every
record that is null or has a missing or falsy coordinate contributes no
marker, the remaining records are all processed in order, and no error or
report arises (the function is total and the skip is a plain `return`).
A coordinate equal to `0` counts as missing. -/
theorem c6_invalid_records_skipped (events : List (String × Option Event))
    (zoom : Int) (st : St) :
    (renderMarkers events zoom st).activeMarkers.map MarkerEntry.key =
      (events.filter fun p => validEvent p.2).map Prod.fst ∧
    (∀ ev : Event, (ev.lat = none ∨ ev.lat = some 0 ∨ ev.lon = none ∨ ev.lon = some 0) →
      validEvent (some ev) = false) ∧
    validEvent none = false := by
  refine ⟨?_, ?_, rfl⟩
  · rw [renderMarkers_active]
    exact entriesOf_keys events st.nextId
  · intro ev h
    rw [validEvent_some]
    rcases h with h | h | h | h <;> simp [falsy, h]

/-- C6 witness: a record at latitude 0 (a falsy coordinate) is invalid, so
the rebuild of a snapshot holding only that record stores no marker. -/
theorem c6_witness :
    validEvent (some ⟨some 0, some 10, none, none, none, none, JSValue.undef, none⟩) = false ∧
    (renderMarkers [("z", some ⟨some 0, some 10, none, none, none, none, JSValue.undef, none⟩)]
        4 ⟨[], [], 0⟩).activeMarkers.map MarkerEntry.key = [] := by
  refine ⟨(c6_invalid_records_skipped [] 0 ⟨[], [], 0⟩).2.1 _ (Or.inr (Or.inl rfl)), ?_⟩
  have h := (c6_invalid_records_skipped
    [("z", some ⟨some 0, some 10, none, none, none, none, JSValue.undef, none⟩)]
    4 ⟨[], [], 0⟩).1
  rw [h]
  decide

/-- C7: `reevaluateVisibility` is idempotent at a fixed zoom — immediately
repeating `updateMarkerVisibility` with the same zoom leaves the state
unchanged and performs zero attach and zero detach calls.  The hypothesis
says the stored markers are pairwise distinct objects, which holds in every
reachable state. -/
theorem c7_idempotent (zoom : Int) (st : St)
    (h : (st.activeMarkers.map MarkerEntry.id).Nodup) :
    updateMarkerVisibility zoom (updateMarkerVisibility zoom st).1 =
      ((updateMarkerVisibility zoom st).1, 0, 0) := by
  have hfix : ∀ m ∈ st.activeMarkers,
      (m.id ∈ (updVis zoom st.activeMarkers st.layers).1 ↔ zoom ≥ m.minZoom) :=
    updVis_entry zoom st.activeMarkers st.layers h
  unfold updateMarkerVisibility
  simp only
  rw [updVis_fixed zoom st.activeMarkers _ hfix]

/-- C7 witness: idempotence at zoom 5 for a concrete state with one visible
and one hidden marker and a stray attached layer. -/
theorem c7_witness :
    updateMarkerVisibility 5
        (updateMarkerVisibility 5 ⟨[⟨"e1", 0, 3⟩, ⟨"e2", 1, 9⟩], [7, 0], 2⟩).1 =
      ((updateMarkerVisibility 5 ⟨[⟨"e1", 0, 3⟩, ⟨"e2", 1, 9⟩], [7, 0], 2⟩).1, 0, 0) :=
  c7_idempotent 5 ⟨[⟨"e1", 0, 3⟩, ⟨"e2", 1, 9⟩], [7, 0], 2⟩ (by decide)

/-- C8: the feed's error callback reports to the status/log sink (the two
`verboseError`/`logStatus` messages), returns normally, and leaves the whole
marker state — entries and attached layers — unchanged. -/
theorem c8_feed_error_preserves_state (zoom : Int) (st : St) :
    (handleFeed FeedMsg.error zoom st).1 = st ∧
    (handleFeed FeedMsg.error zoom st).2 = ["Firebase listener error:", "firebase error"] :=
  ⟨rfl, rfl⟩

/-- C9: on every input value — number, string, `undefined`, `null` or
boolean — `getMinZoomForImportance` returns one of 0, 3, 5, 7, 9. -/
theorem c9_zoom_range (v : JSValue) :
    getMinZoomForImportance v ∈ ([0, 3, 5, 7, 9] : List Int) := by
  unfold getMinZoomForImportance
  cases hp : parseIntJS v with
  | none => simp
  | some n =>
    by_cases h0 : n = 0
    · simp [h0]
    · simp only [if_neg h0]
      split_ifs <;> simp

/-- C10: for every topic in one of the four classification groups, the color
is independent of the active theme — only the neutral fallback may differ
between themes. -/
theorem c10_theme_independent_groups (s th1 th2 : String)
    (h : toLowerStr s ∈ alertTopics ++ growthTopics ++ infoTopics ++ warningTopics) :
    getTopicColor (some s) th1 = getTopicColor (some s) th2 := by
  simp only [List.mem_append] at h
  rcases h with ((h | h) | h) | h
  · rw [topicColor_alert s th1 h, topicColor_alert s th2 h]
  · rw [topicColor_growth s th1 h, topicColor_growth s th2 h]
  · rw [topicColor_info s th1 h, topicColor_info s th2 h]
  · rw [topicColor_warning s th1 h, topicColor_warning s th2 h]

/-- C10 witness: the growth topic `finance` has the same color on the dark
and the light theme. -/
theorem c10_witness :
    getTopicColor (some "finance") "dark" = getTopicColor (some "finance") "light" :=
  c10_theme_independent_groups "finance" "dark" "light" (by decide)

end Geomonitor
